import Mathlib

/-!
A shallow embedding of the rshell language front end and execution engine
(scanner, recursive-descent parser, builtin dispatcher, command interpreter,
alias registry), together with theorems settling the specification claims.

Conventions of the embedding:
* machine integers (`i32`) are modelled as `Int` (no claim exercises overflow);
* `std::env::var` and the other OS interactions are oracle parameters;
* Rust panics (`unimplemented!()`, out-of-bounds indexing, `Option::unwrap`
  on `None`) are explicit outcome constructors;
* the scanner and parser loops carry a fuel parameter so that they are
  structurally recursive and evaluate inside the kernel; each loop step
  consumes at least one input element, and the top-level wrappers pass
  fuel that is provably sufficient.
-/

namespace RShell

/-- TokenType from src/lang/tokens.rs. -/
inductive TokenType where
  | andAnd
  | and
  | part
  | dollarSign
  | pipe
  | orOr
  | eof
  | semicolon
  | leftBrace
  | rightBrace
  | colonDash
deriving DecidableEq

/-- Token from src/lang/tokens.rs; the field `type` is `r#type` in the source. -/
structure Token where
  location : Nat
  type : TokenType
  lexeme : String
deriving DecidableEq

/-- `Token::new(type, lexeme, location)`. -/
def Token.new (t : TokenType) (lexeme : String) (location : Nat) : Token :=
  { location := location, type := t, lexeme := lexeme }

/-- Command from src/command.rs. -/
structure Command where
  keyword : String
  args : List String
deriving DecidableEq

/-- `Command::new(keyword, args)` as used by `Parser::parse_tokens`. -/
def Command.new (keyword : String) (args : List String) : Command :=
  { keyword := keyword, args := args }

/-- Aliases from src/lib.rs: a `HashMap<String, String>`, modelled as an
association list whose keys are unique; `HashMap` iteration order is not
observable in any claim. -/
structure Aliases where
  aliases : List (String × String)
deriving DecidableEq

/-- `Aliases::get`. -/
def Aliases.get (m : Aliases) (key : String) : Option String :=
  m.aliases.lookup key

/-- `Aliases::set`, i.e. `HashMap::insert`: the new binding replaces any old
binding of the same key, and the previously bound value is returned. -/
def Aliases.set (m : Aliases) (key value : String) : Option String × Aliases :=
  (m.get key, ⟨(key, value) :: m.aliases.filter (fun p => p.1 != key)⟩)

/-- The process environment as read by `std::env::var` (`none` = unset). -/
abbrev Env : Type := String → Option String

/-! ### Scanner (src/lang/scanner.rs) -/

/-- The NUL character returned by `Scanner::peek` at end of input. -/
def nulChar : Char := Char.ofNat 0

/-- The single-quote character (written via its code point throughout). -/
def singleQuote : Char := Char.ofNat 39

/-- The single-quote character as a one-character string. -/
def singleQuoteS : String := String.singleton singleQuote

/-- QuoteType from src/lang/scanner.rs. -/
inductive QuoteType where
  | any
  | single
  | double
deriving DecidableEq

/-- `impl From<QuoteType> for char`. -/
def QuoteType.toChar : QuoteType → Char
  | .single => singleQuote
  | .double => '"'
  | .any => '"'

/-- `impl From<char> for QuoteType`. -/
def QuoteType.ofChar (c : Char) : QuoteType :=
  if c = singleQuote then .single
  else if c = '"' then .double
  else .any

/-- Ambient state consulted by the scanner: the environment, the ALIASES
registry and the PREVIOUS_EXIT_CODE cell (all process-wide in the source). -/
structure ScanCtx where
  env : Env
  aliases : Aliases
  previousExitCode : Int

/-- `Scanner::is_part`; `char::is_alphanumeric` is modelled by
`Char.isAlphanum` (the two agree on every ASCII character). -/
def isPartChar (c : Char) : Bool :=
  c.isAlphanum || c == '=' || c == singleQuote || c == '"' || c == '.' ||
    c == '/' || c == '-'

/-- The scanning loop of `Scanner::part` in the `QuoteType::Any` case.
`rem` is the source from the current position; the result is the number of
characters consumed. The loop peeks the current character, and after each
advance updates the quote bookkeeping from the newly peeked character. An
empty `rem` corresponds to `peek()` returning NUL, which ends the loop. -/
def partAnyLoop : List Char → Option QuoteType → Bool → Nat
  | [], _, _ => 0
  | c :: rest, qt, iq =>
    if isPartChar c || (iq && c == ' ') then
      let c2 := rest.headD nulChar
      1 + (match qt with
        | some q =>
          partAnyLoop rest (some q)
            (if c2 == q.toChar || iq then true else c2 == q.toChar && !iq)
        | none =>
          if c2 == singleQuote || c2 == '"' || iq then
            partAnyLoop rest (some (QuoteType.ofChar c2)) true
          else
            partAnyLoop rest none ((c2 == singleQuote || c2 == '"') && !iq))
    else 0

/-- The scanning loop of `Scanner::part` in the `Single`/`Double` case;
`q` is `char::from(quote_type)`. -/
def partQuotedLoop : List Char → Char → Bool → Nat
  | [], _, _ => 0
  | c :: rest, q, iq =>
    if isPartChar c || (iq && c == ' ') then
      let c2 := rest.headD nulChar
      1 + partQuotedLoop rest q (if c2 == q || iq then true else c2 == q && !iq)
    else 0

/-- The scanning loop of `Scanner::part_return_lexeme`. -/
def partReturnLoop : List Char → Bool → Nat
  | [], _ => 0
  | c :: rest, iq =>
    if isPartChar c || (iq && c == ' ') then
      let c2 := rest.headD nulChar
      1 + partReturnLoop rest
        (if c2 == singleQuote || c2 == '"' || iq then true
         else (c2 == singleQuote || c2 == '"') && !iq)
    else 0

/-- `Scanner::match`: test the next character, consuming it on success
(the consumption is accounted for by the callers below). -/
def matchChar (rem : List Char) (expected : Char) : Bool :=
  match rem with
  | [] => false
  | c :: _ => c == expected

/-- One call of `Scanner::scan_token` (src/lang/scanner.rs lines 178-228).
On entry `self.start = self.current = n` and `rem` is the source from index
`n`; `scan_tokens` only calls this with a nonempty `rem`. Returns the tokens
emitted and the number of characters consumed, or `none` where the Rust code
panics: in the `'~'` arm, `self.advance()` is called unconditionally and
indexes past the end of the source when `~` is the last character. -/
def scanToken (ctx : ScanCtx) (n : Nat) (rem : List Char) :
    Option (List Token × Nat) :=
  match rem with
  | [] => none
  | c :: rest =>
    if c == '&' then
      if matchChar rest '&' then
        some ([Token.new .andAnd (String.mk ((c :: rest).take 2)) (n + 2)], 2)
      else
        some ([Token.new .and (String.mk [c]) (n + 1)], 1)
    else if c == '|' then
      if matchChar rest '|' then
        some ([Token.new .orOr (String.mk ((c :: rest).take 2)) (n + 2)], 2)
      else
        some ([Token.new .pipe (String.mk [c]) (n + 1)], 1)
    else if c == '$' then
      if matchChar rest '?' then
        some ([Token.new .part (toString ctx.previousExitCode) (n + 2)], 2)
      else
        some ([Token.new .dollarSign (String.mk [c]) (n + 1)], 1)
    else if c == '{' then
      some ([Token.new .leftBrace (String.mk [c]) (n + 1)], 1)
    else if c == '}' then
      some ([Token.new .rightBrace (String.mk [c]) (n + 1)], 1)
    else if c == ' ' || c == '\n' || c == '\t' || c == '\r' then
      some ([], 1)
    else if c == ':' then
      if matchChar rest '-' then
        some ([Token.new .colonDash (String.mk ((c :: rest).take 2)) (n + 2)], 2)
      else
        some ([], 1)
    else if c == '~' then
      match rest with
      | [] => none
      | c2 :: rest2 =>
        if isPartChar c2 then
          let k := partReturnLoop rest2 false
          let text := String.mk (c2 :: rest2.take k)
          let expanded := (ctx.aliases.get text).getD text
          some ([Token.new .part (((ctx.env "HOME").getD "") ++ expanded)
            (n + 2 + k)], 2 + k)
        else
          some ([Token.new .part ((ctx.env "HOME").getD "") (n + 2)], 2)
    else if c == ';' then
      some ([Token.new .semicolon (String.mk [c]) (n + 1)], 1)
    else if c == singleQuote then
      let k := partQuotedLoop rest singleQuote false
      some ([Token.new .part (String.mk ((c :: rest).take (1 + k))) (n + 1 + k)],
        1 + k)
    else if c == '"' then
      let k := partQuotedLoop rest '"' false
      some ([Token.new .part (String.mk ((c :: rest).take (1 + k))) (n + 1 + k)],
        1 + k)
    else
      let k := partAnyLoop rest none false
      some ([Token.new .part (String.mk ((c :: rest).take (1 + k))) (n + 1 + k)],
        1 + k)

/-- Result of `Scanner::scan_tokens`: a token stream, a Rust panic, or fuel
exhaustion of the embedding (never reached for the fuel passed by
`scanTokens`). -/
inductive ScanRes where
  | ok (tokens : List Token)
  | panicked
  | fuelOut
deriving DecidableEq

/-- The `while !self.is_at_end()` loop of `Scanner::scan_tokens`, followed by
the final Eof push. `n` is `self.current`. Every `scanToken` call consumes at
least one character, so fuel `length + 1` suffices. -/
def scanLoop (ctx : ScanCtx) : Nat → Nat → List Char → List Token → ScanRes
  | 0, _, _, _ => .fuelOut
  | fuel + 1, n, rem, tokens =>
    match rem with
    | [] => .ok (tokens ++ [Token.new .eof "" n])
    | _ :: _ =>
      match scanToken ctx n rem with
      | none => .panicked
      | some (emitted, k) => scanLoop ctx fuel (n + k) (rem.drop k) (tokens ++ emitted)

/-- `Scanner::new(source).scan_tokens()`. -/
def scanTokens (ctx : ScanCtx) (source : String) : ScanRes :=
  scanLoop ctx (source.toList.length + 1) 0 source.toList []

/-! ### Parser (src/lang/parser/mod.rs and src/lang/parser/error.rs) -/

/-- ErrorKind from src/lang/parser/error.rs: each variant carries the
found/offending token, the preceding token, and the expected token set. -/
inductive ErrorKind where
  | unexpectedToken (found : Token) (preceding : Token) (expected : List TokenType)
  | requiredTokenNotFound (found : Token) (preceding : Token) (expected : List TokenType)
deriving DecidableEq

/-- `ErrorKind::code`: the stable numeric code of each parse error. -/
def ErrorKind.code : ErrorKind → Int
  | .unexpectedToken _ _ _ => 1
  | .requiredTokenNotFound _ _ _ => 2

/-- Result of `Parser::parse_tokens`, with explicit constructors for Rust
panics (`unimplemented!()` in the `And` arm, out-of-bounds indexing) and for
fuel exhaustion of the embedding (never reached for the fuel passed by
`parseTokens`). -/
inductive POutcome where
  | ok (commands : List Command)
  | err (e : ErrorKind)
  | panicked (msg : String)
  | fuelOut
deriving DecidableEq

/-- The end of `Parser::parse_tokens`:
`commands.insert(0, Command::new(first_command[0].clone(), first_command[1..].to_vec()))`.
Indexing `first_command[0]` on an empty vector is a Rust panic. -/
def finishParse (commands : List Command) (firstCommand : List String) : POutcome :=
  match firstCommand with
  | [] => .panicked "index out of bounds"
  | k :: args => .ok (Command.new k args :: commands)

/-- The token types rejected directly after `&&`
(src/lang/parser/mod.rs lines 75-84). -/
def afterAndAndForbidden : List TokenType :=
  [.pipe, .and, .andAnd, .eof, .orOr, .semicolon]

/-- The `while !self.is_at_end()` loop of `Parser::parse_tokens`
(src/lang/parser/mod.rs lines 69-159), in cursor-free form: `prev` holds the
consumed tokens (most recently consumed first, i.e. `self.tokens[..current]`
reversed) and `rem` the rest (`self.tokens[current..]`), so `peek` is the
head of `rem`, `peek_next` the head of its tail, and `peek_back`/`previous`
the head of `prev`. Reading `self.tokens[...]` past the end of the vector
(reachable only on a stream that is not Eof-terminated) is a Rust panic,
modelled as `.panicked`. The recursive `self.parse_tokens()` call in the
`AndAnd` arm is inlined as a `parseLoop` call with fresh accumulators; its
entry `is_at_end` early return is unreachable there because `Eof` is in the
rejected-token set checked just before. The `eprintln!` diagnostics of the
unimplemented-token arm are not modelled. Each step either consumes a token
or follows a returning inner parse (of which there is at most one per
consumed `&&`), so fuel `2 * length + 2` suffices. Returns the outcome
together with the final `prev` and `rem`. -/
def parseLoop (env : Env) :
    Nat → List Token → List Token → List Command → List String →
    POutcome × List Token × List Token
  | 0, prev, rem, _, _ => (.fuelOut, prev, rem)
  | fuel + 1, prev, rem, commands, firstCommand =>
    match rem with
    | [] => (.panicked "index out of bounds", prev, [])
    | t :: rest =>
      if t.type = .eof then
        (finishParse commands firstCommand, prev, rem)
      else
        match t.type with
        | .andAnd =>
          match rest with
          | [] => (.panicked "index out of bounds", t :: prev, [])
          | next :: _ =>
            if next.type ∈ afterAndAndForbidden then
              (.err (.unexpectedToken next t [.dollarSign, .part]), t :: prev, rest)
            else
              match parseLoop env fuel (t :: prev) rest [] [] with
              | (.ok others, prev2, rem2) =>
                parseLoop env fuel prev2 rem2 (commands ++ others) firstCommand
              | (r, prev2, rem2) => (r, prev2, rem2)
        | .and => (.panicked "not implemented", t :: prev, rest)
        | .part =>
          parseLoop env fuel (t :: prev) rest commands (firstCommand ++ [t.lexeme])
        | .eof => (finishParse commands firstCommand, prev, rem)
        | .dollarSign =>
          match rest with
          | [] => (.panicked "index out of bounds", t :: prev, [])
          | t2 :: rest2 =>
            match t2.type with
            | .part =>
              parseLoop env fuel (t2 :: t :: prev) rest2 commands
                (firstCommand ++ [(env t2.lexeme).getD ""])
            | .leftBrace =>
              match rest2 with
              | [] => (.panicked "index out of bounds", t :: prev, rest)
              | t3 :: rest3 =>
                if t3.type = .part then
                  match rest3 with
                  | [] => (.panicked "index out of bounds", t3 :: t2 :: t :: prev, [])
                  | t4 :: rest4 =>
                    if t4.type = .colonDash then
                      match rest4 with
                      | [] =>
                        (.panicked "index out of bounds",
                          t4 :: t3 :: t2 :: t :: prev, [])
                      | t5 :: rest5 =>
                        if t5.type = .part then
                          match rest5 with
                          | [] =>
                            (.panicked "index out of bounds",
                              t5 :: t4 :: t3 :: t2 :: t :: prev, [])
                          | w :: ws =>
                            if w.type = .rightBrace then
                              parseLoop env fuel
                                (w :: t5 :: t4 :: t3 :: t2 :: t :: prev) ws
                                commands
                                (firstCommand ++ [(env t3.lexeme).getD t5.lexeme])
                            else
                              (.err (.requiredTokenNotFound w t5 [.rightBrace]),
                                t5 :: t4 :: t3 :: t2 :: t :: prev, rest5)
                        else
                          -- ColonDash matched but no default Part followed:
                          -- the RightBrace check peeks `t5` itself
                          if t5.type = .rightBrace then
                            parseLoop env fuel
                              (t5 :: t4 :: t3 :: t2 :: t :: prev) rest5 commands
                              (firstCommand ++ [(env t3.lexeme).getD ""])
                          else
                            (.err (.requiredTokenNotFound t5 t4 [.rightBrace]),
                              t4 :: t3 :: t2 :: t :: prev, t5 :: rest5)
                    else
                      match rest3 with
                      | [] =>
                        (.panicked "index out of bounds", t3 :: t2 :: t :: prev, [])
                      | w :: ws =>
                        if w.type = .rightBrace then
                          parseLoop env fuel (w :: t3 :: t2 :: t :: prev) ws
                            commands (firstCommand ++ [(env t3.lexeme).getD ""])
                        else
                          (.err (.requiredTokenNotFound w t3 [.rightBrace]),
                            t3 :: t2 :: t :: prev, rest3)
                else
                  (.err (.unexpectedToken t3 t2 [.part]), t :: prev, rest)
            | _ =>
              (.err (.unexpectedToken t2 t [.part, .leftBrace]), t :: prev, rest)
        | _ => (.ok [], t :: prev, rest)

/-- `Parser::new(tokens).parse_tokens()`, projected to the outcome. The entry
`is_at_end` check precedes the loop; `peek` on an empty token vector is a
Rust panic (the scanner always produces at least the Eof token). -/
def parseTokens (env : Env) (tokens : List Token) : POutcome :=
  match tokens with
  | [] => .panicked "index out of bounds"
  | t :: _ =>
    if t.type = .eof then .ok []
    else (parseLoop env (2 * tokens.length + 2) [] tokens [] []).1

/-! ### Builtins (src/builtin.rs) and the interpreter (src/command.rs) -/

/-- Builtin from src/builtin.rs (the `Builtin` variant, for the `builtin`
keyword, is `BuiltinKw` here since Lean rejects a constructor repeating the
type name). -/
inductive Builtin where
  | Alias
  | BuiltinKw
  | Cd
  | Echo
  | Exit
  | History
  | Pwd
deriving DecidableEq

/-- `Builtin::from_str` (src/builtin.rs lines 46-57; this snapshot has no
`chdir` spelling for `cd`). The `Err` payload is the input itself. -/
def Builtin.fromStr (s : String) : Except String Builtin :=
  match s with
  | "alias" => .ok .Alias
  | "echo" => .ok .Echo
  | "exit" => .ok .Exit
  | "bye" => .ok .Exit
  | "builtin" => .ok .BuiltinKw
  | "history" => .ok .History
  | "cd" => .ok .Cd
  | "pwd" => .ok .Pwd
  | command => .error command

/-- `str::split_once` on a character list: split at the first occurrence of
`c`, returning the parts before and after it, or `none` if `c` is absent. -/
def splitOnceChars : List Char → Char → Option (List Char × List Char)
  | [], _ => none
  | x :: xs, c =>
    if x == c then some ([], xs)
    else
      match splitOnceChars xs c with
      | some (a, b) => some (x :: a, b)
      | none => none

/-- `str::split_once` on strings. -/
def splitOnce (s : String) (c : Char) : Option (String × String) :=
  (splitOnceChars s.toList c).map (fun p => (String.mk p.1, String.mk p.2))

/-- `Builtin::alias` (src/builtin.rs lines 67-98); `args` are the arguments
after the `alias` keyword. Returns the updated registry, the printed lines
and the exit code. The `args[0].contains('=')` test followed by
`args[0].split_once('=').unwrap()` is one match on `splitOnce` (they agree:
`contains` holds exactly when `split_once` returns `Some`). The lock is
modelled as always acquired (it is never poisoned in a panic-free run). -/
def Builtin.alias (m : Aliases) (args : List String) :
    Aliases × List String × Int :=
  match args with
  | [] =>
    (m, m.aliases.map (fun p => p.1 ++ "=" ++ singleQuoteS ++ p.2 ++ singleQuoteS), 0)
  | [a] =>
    match splitOnce a '=' with
    | some (key, value) => ((m.set key value).2, [], 0)
    | none =>
      match m.get a with
      | some value =>
        (m, [a ++ "=" ++ singleQuoteS ++ value ++ singleQuoteS], 0)
      | none => (m, [a ++ " not found"], 2)
  | _ => (m, ["rshell: Too many arguments"], 3)

/-- `std::io::Error` as observed by `Command::interpret`: its displayed
message and its `raw_os_error()`. -/
structure OsError where
  message : String
  rawOsError : Option Int
deriving DecidableEq

/-- The observable result of `tokio::process::Command::spawn` followed (on
success) by `wait`: the spawn can fail with an OS error, the wait can fail,
or the child terminates; a child terminated by a signal has
`ExitStatus::code() == None`. -/
inductive SpawnOutcome where
  | spawnErr (e : OsError)
  | waitErr (e : OsError)
  | exited (code : Option Int)
deriving DecidableEq

/-- The OS interactions of the interpreter and builtins, as oracles:
the environment, process spawning, `set_current_dir` (`none` = success,
`some msg` = the error's message), the readable history file, and the
current directory. -/
structure Os where
  env : Env
  spawn : String → List String → SpawnOutcome
  setCurrentDir : String → Option String
  readHistory : Option (List String)
  currentDir : Option String

/-- `Builtin::cd` (src/builtin.rs lines 145-154). -/
def Builtin.cd (os : Os) (args : List String) : List String × Int :=
  let homeDir := (os.env "HOME").getD "/"
  match os.setCurrentDir (args.headD homeDir) with
  | some errorMsg => (["rshell: " ++ errorMsg], 1)
  | none => ([], 0)

/-- `Builtin::echo`. -/
def Builtin.echo (args : List String) : List String × Int :=
  ([String.intercalate " " args], 0)

/-- `Builtin::exit`: parse the first argument as an exit code, defaulting to
0 when absent or unparsable (`i32` parsing modelled by `String.toInt?`). -/
def Builtin.exit (args : List String) : Int :=
  match args with
  | [] => 0
  | a :: _ => (a.toInt?).getD 0

/-- `Builtin::history` (the history file read is the `readHistory` oracle). -/
def Builtin.history (os : Os) : List String × Int :=
  match os.readHistory with
  | none => (["rshell: could not read from ~/.rshistory"], 1)
  | some ls => (ls.enum.map (fun p => toString (p.1 + 1) ++ " " ++ p.2), 0)

/-- `Builtin::pwd`. -/
def Builtin.pwd (os : Os) : List String × Int :=
  match os.currentDir with
  | none => (["rshell: could not find current directory"], 1)
  | some d => ([d], 0)

/-- Outcome of `Command::interpret` (which returns `i32` in the source): a
returned exit code, whole-process termination via `std::process::exit`, or a
Rust panic (`Option::unwrap` on `None`). -/
inductive InterpOutcome where
  | ret (code : Int)
  | exitProc (code : Int)
  | panicked
deriving DecidableEq

/-- Whether `interpret` returned an exit status at all. -/
def InterpOutcome.returnsValue : InterpOutcome → Bool
  | .ret _ => true
  | _ => false

/-- `Command::interpret` (src/command.rs lines 58-108). Returns the updated
alias registry, the printed lines and the outcome. Notes kept from the
source: on a spawn error it prints the error itself (no prefix) and returns
`error.raw_os_error().unwrap()` (a panic when the error carries no raw OS
code); on a wait error it prints `rshell: <error>` and returns 2; a child
with no exit code (terminated by a signal) hits `process.code().unwrap()`,
a panic. The `ALIASES.lock()` poisoning branch is not modelled (the lock is
never poisoned in a panic-free run). `Builtin::from_str` can also yield
`Ok(Builtin::Builtin)`, for which the source match has no arm; that case is
modelled as a panic and is unreachable in the theorems below. -/
def Command.interpret (cmd : Command) (os : Os) (aliases : Aliases) :
    Aliases × List String × InterpOutcome :=
  match Builtin.fromStr cmd.keyword with
  | .ok .Alias =>
    match Builtin.alias aliases cmd.args with
    | (m2, out, code) => (m2, out, .ret code)
  | .ok .Cd =>
    match Builtin.cd os cmd.args with
    | (out, code) => (aliases, out, .ret code)
  | .ok .Echo =>
    match Builtin.echo cmd.args with
    | (out, code) => (aliases, out, .ret code)
  | .ok .Exit => (aliases, [], .exitProc (Builtin.exit cmd.args))
  | .ok .History =>
    match Builtin.history os with
    | (out, code) => (aliases, out, .ret code)
  | .ok .Pwd =>
    match Builtin.pwd os with
    | (out, code) => (aliases, out, .ret code)
  | .ok .BuiltinKw => (aliases, [], .panicked)
  | .error command =>
    if command.isEmpty then (aliases, [], .ret 0)
    else
      let program :=
        match aliases.get command with
        | some a => a
        | none => command
      match os.spawn program cmd.args with
      | .spawnErr e =>
        (aliases, [e.message],
          match e.rawOsError with
          | some code => .ret code
          | none => .panicked)
      | .waitErr e => (aliases, ["rshell: " ++ e.message], .ret 2)
      | .exited (some code) => (aliases, [], .ret code)
      | .exited none => (aliases, [], .panicked)

/-- Modelled from the spec: `Command::run`'s interpretation loop and the
`Option<i32>`-returning `interpret` of spec section 4.3 are not present
under src/ (src/main.rs calls `Command::run`, but no snapshot defines it).
Per sections 4.3 and 5: interpret every parsed command in order, stopping at
the first nonzero or absent result, which becomes the chain's result.
`interp` abstracts one command's interpretation as its optional exit status
together with its observable side effects (printed output). -/
def runCommands (interp : Command → Option Int × List String) :
    List Command → Option Int × List String
  | [] => (some 0, [])
  | c :: rest =>
    let r := interp c
    if r.1 = some 0 then
      let r2 := runCommands interp rest
      (r2.1, r.2 ++ r2.2)
    else r

/-! ### Concrete fixtures used by closed theorems -/

/-- An empty environment. -/
def env0 : Env := fun _ => none

/-- A scanner context with empty environment, no aliases and exit code 0. -/
def ctx0 : ScanCtx := ⟨env0, ⟨[]⟩, 0⟩

/-- An Eof token at position 0. -/
def eofTok : Token := Token.new .eof "" 0

/-- A Part token with the given lexeme. -/
def mkPart (w : String) : Token := Token.new .part w 0

/-- A DollarSign token. -/
def dollarTok : Token := Token.new .dollarSign "$" 0

/-- A LeftBrace token. -/
def lbraceTok : Token := Token.new .leftBrace "\x7b" 0

/-- A RightBrace token. -/
def rbraceTok : Token := Token.new .rightBrace "\x7d" 0

/-- A ColonDash token. -/
def colonDashTok : Token := Token.new .colonDash ":-" 0

/-- An AndAnd token. -/
def andAndTok : Token := Token.new .andAnd "&&" 0

/-- An And token. -/
def andTok : Token := Token.new .and "&" 0

/-- A Pipe token. -/
def pipeTok : Token := Token.new .pipe "|" 0

/-- A neutral OS oracle: empty environment, every spawn exits 0. -/
def os0 : Os := ⟨env0, fun _ _ => .exited (some 0), fun _ => none, none, none⟩

/-- An OS oracle whose spawn fails with ENOENT (executable not found). -/
def osNotFound : Os :=
  ⟨env0, fun _ _ => .spawnErr ⟨"No such file or directory (os error 2)", some 2⟩,
    fun _ => none, none, none⟩

/-- An OS oracle whose spawned child is terminated by a signal. -/
def osSignal : Os := ⟨env0, fun _ _ => .exited none, fun _ => none, none, none⟩

/-- Whether a parse outcome is a `RequiredTokenNotFound` error. -/
def POutcome.isRequiredTokenNotFound : POutcome → Bool
  | .err (.requiredTokenNotFound _ _ _) => true
  | _ => false

/-- The whitespace characters skipped by `Scanner::scan_token`. -/
def whitespaceChars : List Char := [' ', '\n', '\t', '\r']

/-! ### Helper lemmas -/

/-- Looking up a key different from the filtered-out key is unchanged. -/
theorem lookup_filter_ne (k k2 : String) (h : k2 ≠ k) :
    ∀ l : List (String × String),
      (l.filter (fun p => p.1 != k)).lookup k2 = l.lookup k2
  | [] => rfl
  | a :: t => by
    have hk2k : (k2 == k) = false := by simp [h]
    rcases eq_or_ne a.1 k with ha | ha
    · have hk2 : (k2 == a.1) = false := by simp [ha, h]
      simp [List.filter_cons, ha, List.lookup, hk2, hk2k, lookup_filter_ne k k2 h t]
    · rcases eq_or_ne k2 a.1 with hk2 | hk2
      · simp [List.filter_cons, ha, List.lookup, hk2]
      · simp [List.filter_cons, ha, List.lookup, hk2, hk2k, lookup_filter_ne k k2 h t]

/-- After `set k v`, `get k` yields `v`. -/
theorem Aliases.get_set_self (m : Aliases) (k v : String) :
    ((m.set k v).2).get k = some v := by
  simp [Aliases.set, Aliases.get, List.lookup]

/-- After `set k v`, any other key's binding is unchanged. -/
theorem Aliases.get_set_other (m : Aliases) (k v k2 : String) (h : k2 ≠ k) :
    ((m.set k v).2).get k2 = m.get k2 := by
  have hk2k : (k2 == k) = false := by simp [h]
  simp [Aliases.set, Aliases.get, List.lookup, hk2k]
  exact lookup_filter_ne k k2 h m.aliases

/-- Consuming a prefix of plain word (Part) tokens: each one is appended to
the current command's word list. -/
theorem parseLoop_parts (env : Env) (ps : List String) :
    ∀ (fuel : Nat) (prev rem : List Token) (commands : List Command)
      (fc : List String),
      parseLoop env (ps.length + fuel) prev (ps.map mkPart ++ rem) commands fc =
        parseLoop env fuel ((ps.map mkPart).reverse ++ prev) rem commands (fc ++ ps) := by
  induction ps with
  | nil => intro fuel prev rem commands fc; simp
  | cons p ps ih =>
    intro fuel prev rem commands fc
    rw [show (p :: ps).length + fuel = (ps.length + fuel) + 1 by simp; omega]
    simp only [List.map_cons, List.cons_append, parseLoop, mkPart, Token.new]
    rw [ih]
    simp [List.append_assoc]

/-- `parse_tokens` on a stream beginning with word tokens followed by a
non-Eof token reaches the loop with those words consumed, with some
remaining fuel. -/
theorem parseTokens_parts (env : Env) (ps : List String) (t : Token)
    (rest : List Token) (ht : t.type ≠ .eof) :
    ∃ fuel, parseTokens env (ps.map mkPart ++ t :: rest) =
      (parseLoop env (fuel + 1) ((ps.map mkPart).reverse) (t :: rest) [] ps).1 := by
  cases ps with
  | nil =>
    exact ⟨2 * (t :: rest).length + 1, by simp [parseTokens, ht]⟩
  | cons p ps =>
    refine ⟨ps.length + 2 * rest.length + 4, ?_⟩
    show _ = (parseLoop env (ps.length + 2 * rest.length + 5)
      ((List.map mkPart (p :: ps)).reverse) (t :: rest) [] (p :: ps)).1
    have hthis := parseLoop_parts env (p :: ps) (ps.length + 2 * rest.length + 5)
      [] (t :: rest) [] []
    simp only [List.map_cons, List.cons_append] at hthis
    simp only [List.map_cons, List.cons_append, parseTokens]
    rw [if_neg (by simp [mkPart, Token.new])]
    rw [show 2 * ((mkPart p :: (List.map mkPart ps ++ t :: rest)) : List Token).length + 2 =
      (p :: ps).length + (ps.length + 2 * rest.length + 5) by simp; omega]
    rw [hthis]
    simp

/-- A Pipe, OrOr, Semicolon, LeftBrace, RightBrace or ColonDash token makes
the loop return `Ok(vec![])` (the recognized-but-unimplemented arm). -/
theorem parseLoop_unimplemented (env : Env) (fuel : Nat) (prev : List Token)
    (t : Token) (rest : List Token) (commands : List Command) (fc : List String)
    (h : t.type ∈ ([.pipe, .orOr, .semicolon, .leftBrace, .rightBrace,
      .colonDash] : List TokenType)) :
    parseLoop env (fuel + 1) prev (t :: rest) commands fc =
      (.ok [], t :: prev, rest) := by
  simp only [List.mem_cons, List.not_mem_nil, or_false] at h
  rcases h with h | h | h | h | h | h <;> simp [parseLoop, h]

/-- Scanning a whitespace-only remainder emits nothing and ends with the Eof
token at the final position. -/
theorem scanLoop_whitespace (ctx : ScanCtx) :
    ∀ (rem : List Char) (fuel n : Nat) (tokens : List Token),
      (∀ c ∈ rem, c ∈ whitespaceChars) → rem.length + 1 ≤ fuel →
      scanLoop ctx fuel n rem tokens =
        .ok (tokens ++ [Token.new .eof "" (n + rem.length)])
  | [], fuel, n, tokens => by
    intro _ hf
    obtain ⟨k, rfl⟩ : ∃ k, fuel = k + 1 := ⟨fuel - 1, by omega⟩
    simp [scanLoop]
  | c :: rest, fuel, n, tokens => by
    intro hws hf
    obtain ⟨k, rfl⟩ : ∃ k, fuel = k + 1 := ⟨fuel - 1, by omega⟩
    have hc : c ∈ whitespaceChars := hws c (by simp)
    have hstep : scanToken ctx n (c :: rest) = some ([], 1) := by
      simp only [whitespaceChars, List.mem_cons, List.not_mem_nil, or_false] at hc
      rcases hc with h | h | h | h <;> subst h <;> rfl
    have hrec := scanLoop_whitespace ctx rest k (n + 1) tokens
      (fun c2 hc2 => hws c2 (by simp [hc2])) (by simpa using hf)
    simp only [scanLoop, hstep, List.drop_one, List.tail_cons, List.append_nil]
    rw [hrec]
    have : n + 1 + rest.length = n + (rest.length + 1) := by omega
    simp [this]

/-! ### Claim theorems -/

/-- C1 (spec-modelled run loop): for a line whose tokens parse to an
AND-chain of commands, the run loop interprets them strictly left to right
and stops at the first command whose result is nonzero or absent: the
chain's result is that command's result, and no later command's side
effects appear in the output. -/
theorem and_chain_short_circuit (env : Env) (ts : List Token)
    (interp : Command → Option Int × List String)
    (pre : List Command) (c : Command) (post : List Command)
    (hparse : parseTokens env ts = .ok (pre ++ c :: post))
    (hpre : ∀ c2 ∈ pre, (interp c2).1 = some 0)
    (hfail : (interp c).1 ≠ some 0) :
    runCommands interp (pre ++ c :: post) =
      ((interp c).1, (pre.map (fun c2 => (interp c2).2)).flatten ++ (interp c).2) := by
  clear hparse
  induction pre with
  | nil => simp [runCommands, hfail]
  | cons p pre ih =>
    have hp : (interp p).1 = some 0 := hpre p (by simp)
    have ih2 := ih (fun c2 hc2 => hpre c2 (by simp [hc2]))
    simp only [List.cons_append, runCommands, hp, if_pos, List.append_eq]
    rw [ih2]
    simp

/-- Witness for `and_chain_short_circuit`: `false && echo should_not_print`
with `false` exiting 1 gives result 1 and no output from `echo`. -/
theorem and_chain_short_circuit_witness :
    runCommands
        (fun c => if c.keyword = "false" then (some 1, [])
          else (some 0, ["should_not_print"]))
        ([] ++ Command.new "false" [] :: [Command.new "echo" ["should_not_print"]]) =
      (some 1, []) :=
  and_chain_short_circuit env0
    [mkPart "false", andAndTok, mkPart "echo", mkPart "should_not_print", eofTok]
    (fun c => if c.keyword = "false" then (some 1, [])
      else (some 0, ["should_not_print"]))
    [] (Command.new "false" []) [Command.new "echo" ["should_not_print"]]
    (by decide) (by intro c2 hc2; simp at hc2) (by decide)

/-- C2 counterexample: a whitespace-only line scans to just the Eof token and
`parse_tokens` returns an empty command list — zero commands, not one
Command with empty keyword and args. -/
theorem blank_line_counterexample :
    scanTokens ctx0 " " = .ok [Token.new .eof "" 1] ∧
      parseTokens env0 [Token.new .eof "" 1] = .ok [] ∧
      POutcome.ok ([] : List Command) ≠ .ok [Command.new "" []] := by
  refine ⟨by decide, by decide, by decide⟩

/-- C2 (amended): a blank or whitespace-only line scans to just the Eof token
and parses to an empty command list (zero commands); separately,
interpreting a Command with empty keyword and args returns exit status 0. -/
theorem blank_line_behavior (ctx : ScanCtx) (env : Env) (os : Os)
    (aliases : Aliases) (s : String)
    (h : ∀ c ∈ s.toList, c ∈ whitespaceChars) :
    scanTokens ctx s = .ok [Token.new .eof "" s.toList.length] ∧
      parseTokens env [Token.new .eof "" s.toList.length] = .ok [] ∧
      (Command.new "" []).interpret os aliases = (aliases, [], .ret 0) := by
  refine ⟨?_, by simp [parseTokens, Token.new], rfl⟩
  have hmain := scanLoop_whitespace ctx s.toList (s.toList.length + 1) 0 [] h
    (by omega)
  simpa [scanTokens] using hmain

/-- Witness for `blank_line_behavior` on the two-space line. -/
theorem blank_line_behavior_witness :
    scanTokens ctx0 "  " = .ok [Token.new .eof "" "  ".toList.length] ∧
      parseTokens env0 [Token.new .eof "" "  ".toList.length] = .ok [] ∧
      (Command.new "" []).interpret os0 (Aliases.mk []) =
        (Aliases.mk [], [], .ret 0) :=
  blank_line_behavior ctx0 env0 os0 (Aliases.mk []) "  " (by decide)

/-- C3 counterexample: an And token at top level does not abort with an empty
command list: the `And` arm of `parse_tokens` is `unimplemented!()`, a
panic. -/
theorem and_token_panics_counterexample :
    parseTokens env0 [andTok, eofTok] = .panicked "not implemented" ∧
      parseTokens env0 [andTok, eofTok] ≠ .ok [] := by
  refine ⟨by decide, by decide⟩

/-- C3 (amended): a Pipe, OrOr, Semicolon, LeftBrace or RightBrace token
reached at top level (after a prefix of plain words) makes the
`parse_tokens` invocation that reads it return an empty command list without
raising a ParseError; an And token instead panics (`unimplemented!()`), and
when the offending token is only reached after an `&&`, the outer invocation
resumes, so the whole line need not come out empty. -/
theorem unimplemented_token_aborts (env : Env) (ps : List String) (t : Token)
    (rest : List Token)
    (h : t.type ∈ ([.pipe, .orOr, .semicolon, .leftBrace, .rightBrace] :
      List TokenType)) :
    parseTokens env (ps.map mkPart ++ t :: rest) = .ok [] := by
  have h6 : t.type ∈ ([.pipe, .orOr, .semicolon, .leftBrace, .rightBrace,
      .colonDash] : List TokenType) := by
    simp only [List.mem_cons, List.not_mem_nil, or_false] at h ⊢
    tauto
  have ht : t.type ≠ .eof := by
    simp only [List.mem_cons, List.not_mem_nil, or_false] at h
    rcases h with h | h | h | h | h <;> simp [h]
  obtain ⟨fuel, hf⟩ := parseTokens_parts env ps t rest ht
  rw [hf, parseLoop_unimplemented env fuel _ t rest [] ps h6]

/-- Witness for `unimplemented_token_aborts`: `a | c`-shaped token stream. -/
theorem unimplemented_token_aborts_witness :
    parseTokens env0 (["a"].map mkPart ++ pipeTok :: [mkPart "c", eofTok]) =
      .ok [] :=
  unimplemented_token_aborts env0 ["a"] pipeTok [mkPart "c", eofTok] (by decide)

/-- C4: `$NAME` expands to the variable's value, or to the empty string when
`NAME` is unset (never an error); `${NAME:-default}` expands to the value
when set and to the literal default Part verbatim (not itself expanded) when
unset. Stated over an arbitrary environment for the commands `w $NAME`,
`w ${NAME:-default}` and `w $NAME z`. -/
theorem env_expansion (env : Env) (w name dflt z : String) :
    parseTokens env [mkPart w, dollarTok, mkPart name, eofTok] =
      .ok [Command.new w [(env name).getD ""]] ∧
    parseTokens env
        [mkPart w, dollarTok, lbraceTok, mkPart name, colonDashTok,
          mkPart dflt, rbraceTok, eofTok] =
      .ok [Command.new w [(env name).getD dflt]] ∧
    parseTokens env [mkPart w, dollarTok, mkPart name, mkPart z, eofTok] =
      .ok [Command.new w [(env name).getD "", z]] :=
  ⟨rfl, rfl, rfl⟩

/-- C5 counterexample: when spawning fails because the executable is absent,
`interpret` prints the OS error text and returns its errno — it does not
print `command not found: <name>`. -/
theorem spawn_not_found_message_counterexample :
    (Command.new "nosuchcmd" []).interpret osNotFound (Aliases.mk []) =
      (Aliases.mk [], ["No such file or directory (os error 2)"], .ret 2) ∧
      "No such file or directory (os error 2)" ≠
        "command not found: nosuchcmd" := by
  refine ⟨by decide, by decide⟩

/-- C5 (amended): on any spawn failure, `interpret` prints the underlying OS
error once (never a `command not found: <name>` line) and returns
`raw_os_error()` — the OS errno, which is 2 (ENOENT) when the executable
cannot be found and a different errno for other failures, so the cases stay
distinguishable, but there are no shell-chosen fixed codes. -/
theorem spawn_error_returns_errno (os : Os) (aliases : Aliases) (cmd : Command)
    (e : OsError) (n : Int)
    (hb : Builtin.fromStr cmd.keyword = .error cmd.keyword)
    (hne : cmd.keyword.isEmpty = false)
    (ha : aliases.get cmd.keyword = none)
    (hs : os.spawn cmd.keyword cmd.args = .spawnErr e)
    (hr : e.rawOsError = some n) :
    cmd.interpret os aliases = (aliases, [e.message], .ret n) := by
  simp [Command.interpret, hb, hne, ha, hs, hr]

/-- Witness for `spawn_error_returns_errno` with an ENOENT spawn failure. -/
theorem spawn_error_returns_errno_witness :
    (Command.new "lss" ["-a"]).interpret osNotFound (Aliases.mk []) =
      (Aliases.mk [], ["No such file or directory (os error 2)"], .ret 2) :=
  spawn_error_returns_errno osNotFound (Aliases.mk []) (Command.new "lss" ["-a"])
    ⟨"No such file or directory (os error 2)", some 2⟩ 2 rfl rfl rfl rfl rfl

/-- C6 counterexample: with a signal-terminated child (no exit code),
`interpret` does not return any status, absent or otherwise: it panics. -/
theorem signal_termination_counterexample :
    (Command.new "sleep" ["100"]).interpret osSignal (Aliases.mk []) =
      (Aliases.mk [], [], .panicked) ∧
      ((Command.new "sleep" ["100"]).interpret osSignal
        (Aliases.mk [])).2.2.returnsValue = false := by
  refine ⟨by decide, by decide⟩

/-- C6 (amended): when the spawned child is terminated by a signal (its exit
status carries no code), `interpret` panics at `process.code().unwrap()` —
the panic its doc comment announces — instead of returning an absent value
for the caller to map to an interrupted-exit status. -/
theorem signal_termination_panics (os : Os) (aliases : Aliases) (cmd : Command)
    (hb : Builtin.fromStr cmd.keyword = .error cmd.keyword)
    (hne : cmd.keyword.isEmpty = false)
    (ha : aliases.get cmd.keyword = none)
    (hs : os.spawn cmd.keyword cmd.args = .exited none) :
    cmd.interpret os aliases = (aliases, [], .panicked) := by
  simp [Command.interpret, hb, hne, ha, hs]

/-- Witness for `signal_termination_panics`. -/
theorem signal_termination_panics_witness :
    (Command.new "cat" []).interpret osSignal (Aliases.mk []) =
      (Aliases.mk [], [], .panicked) :=
  signal_termination_panics osSignal (Aliases.mk []) (Command.new "cat" [])
    rfl rfl rfl rfl

/-- C7 (code bug): scanning is not total. On a line ending in a bare `~`, the
scanner's `'~'` arm calls `advance()` unconditionally, indexing past the end
of the source — an out-of-bounds panic, contrary to the never-panics
contract. Both the one-character line `~` and `cd ~` panic. -/
theorem scan_tilde_at_end_panics :
    scanTokens ctx0 "~" = .panicked ∧ scanTokens ctx0 "cd ~" = .panicked := by
  refine ⟨by decide, by decide⟩

/-- C8 counterexample: after `$` `{` with no following Part, the parser
raises UnexpectedToken, not the RequiredTokenNotFound variant the claim
names. -/
theorem dollar_brace_error_kind_counterexample :
    parseTokens env0 [dollarTok, lbraceTok, eofTok] =
      .err (.unexpectedToken eofTok lbraceTok [.part]) ∧
      (parseTokens env0 [dollarTok, lbraceTok, eofTok]).isRequiredTokenNotFound
        = false := by
  refine ⟨by decide, by decide⟩

/-- C8 (amended): whenever a DollarSign token is followed by a LeftBrace that
is not followed by a Part token, `parse_tokens` fails with an
`UnexpectedToken` error (not `RequiredTokenNotFound`) whose expected-token
set is exactly {Part}, carrying the offending token and the LeftBrace. -/
theorem dollar_brace_missing_part_error (env : Env) (ps : List String)
    (lb t : Token) (rest : List Token)
    (hlb : lb.type = .leftBrace) (ht : t.type ≠ .part) :
    parseTokens env (ps.map mkPart ++ dollarTok :: lb :: t :: rest) =
      .err (.unexpectedToken t lb [.part]) := by
  obtain ⟨fuel, hf⟩ :=
    parseTokens_parts env ps dollarTok (lb :: t :: rest)
      (by simp [dollarTok, Token.new])
  rw [hf]
  simp [parseLoop, dollarTok, Token.new, hlb, ht]

/-- Witness for `dollar_brace_missing_part_error`: `echo ${}`-shaped stream. -/
theorem dollar_brace_missing_part_error_witness :
    parseTokens env0
        (["echo"].map mkPart ++ dollarTok :: lbraceTok :: rbraceTok :: [eofTok]) =
      .err (.unexpectedToken rbraceTok lbraceTok [.part]) :=
  dollar_brace_missing_part_error env0 ["echo"] lbraceTok rbraceTok [eofTok]
    rfl (by decide)

/-- C9 counterexample: `alias ll='ls -la'` stores the value with its quote
layer intact (`'ls -la'`), not the trimmed `ls -la`. -/
theorem alias_no_quote_trim_counterexample :
    (Builtin.alias (Aliases.mk [])
        [("ll=" ++ singleQuoteS ++ "ls -la" ++ singleQuoteS)]).1.get "ll" =
      some (singleQuoteS ++ "ls -la" ++ singleQuoteS) ∧
      (singleQuoteS ++ "ls -la" ++ singleQuoteS) ≠ "ls -la" := by
  refine ⟨by decide, by decide⟩

/-- C9 (amended): `alias` with exactly one extra argument containing `=`
splits at the first `=`, sets or overwrites that alias with the value text
verbatim (no layer of surrounding quotes is trimmed), and returns 0; with
one extra argument without `=` it prints the alias's current value and
returns 0, or prints "not found" and returns 2 when the alias is absent. -/
theorem alias_builtin_contract (m : Aliases) (a b k v value : String)
    (hset : splitOnce a '=' = some (k, v))
    (hq : splitOnce b '=' = none) :
    Builtin.alias m [a] = ((m.set k v).2, [], 0) ∧
      (Builtin.alias m [a]).1.get k = some v ∧
      (m.get b = some value →
        Builtin.alias m [b] =
          (m, [b ++ "=" ++ singleQuoteS ++ value ++ singleQuoteS], 0)) ∧
      (m.get b = none → Builtin.alias m [b] = (m, [b ++ " not found"], 2)) := by
  refine ⟨by simp [Builtin.alias, hset], ?_, ?_, ?_⟩
  · simp [Builtin.alias, hset, Aliases.get_set_self]
  · intro hv; simp [Builtin.alias, hq, hv]
  · intro hv; simp [Builtin.alias, hq, hv]

/-- Witness for `alias_builtin_contract` on `alias ll=ls -la` and a missing
alias `zz`. -/
theorem alias_builtin_contract_witness :
    Builtin.alias (Aliases.mk []) ["ll=ls -la"] =
        (((Aliases.mk []).set "ll" "ls -la").2, [], 0) ∧
      (Builtin.alias (Aliases.mk []) ["ll=ls -la"]).1.get "ll" = some "ls -la" ∧
      ((Aliases.mk []).get "zz" = some "q" →
        Builtin.alias (Aliases.mk []) ["zz"] =
          (Aliases.mk [], ["zz" ++ "=" ++ singleQuoteS ++ "q" ++ singleQuoteS], 0)) ∧
      ((Aliases.mk []).get "zz" = none →
        Builtin.alias (Aliases.mk []) ["zz"] =
          (Aliases.mk [], ["zz" ++ " not found"], 2)) :=
  alias_builtin_contract (Aliases.mk []) "ll=ls -la" "zz" "ll" "ls -la" "q"
    (by decide) (by decide)

/-- C10: after `Aliases::set(k, v)`, `get k` returns `v`; `set` returns the
value previously bound to `k` (`none` if unbound) and leaves every other
key's binding unchanged. -/
theorem aliases_set_get (m : Aliases) (k v k2 : String) (h : k2 ≠ k) :
    ((m.set k v).2).get k = some v ∧ (m.set k v).1 = m.get k ∧
      ((m.set k v).2).get k2 = m.get k2 :=
  ⟨Aliases.get_set_self m k v, rfl, Aliases.get_set_other m k v k2 h⟩

/-- Witness for `aliases_set_get` at concrete inputs. -/
theorem aliases_set_get_witness :
    (((Aliases.mk [("x", "0")]).set "a" "1").2).get "a" = some "1" ∧
      ((Aliases.mk [("x", "0")]).set "a" "1").1 = (Aliases.mk [("x", "0")]).get "a" ∧
      (((Aliases.mk [("x", "0")]).set "a" "1").2).get "x" =
        (Aliases.mk [("x", "0")]).get "x" :=
  aliases_set_get (Aliases.mk [("x", "0")]) "a" "1" "x" (by decide)

end RShell
